import Mathlib

/-!
Shallow embedding of the invoice approval workflow from
`src/invoice-server.ts` (resonatehq-examples/example-mcp-tools-ts).

The server keeps an in-memory map `approvals : Map<string, {status, invoice,
result?}>`, exposes four tools (`submit_invoice`, `approve_invoice`,
`reject_invoice`, `check_invoice_status`) and runs, per submitted invoice, an
async workflow `processInvoice` that polls the map once per second until a
decision arrives or a 5-minute timeout elapses, then either auto-rejects or
processes the payments sequentially.

The map is modelled as an association list; each tool handler is a pure
function on it.  The workflow is modelled as a small-step machine: one `tick`
runs the synchronous segment of `processInvoice` between two suspension points
(`await`s), and the user-driven handlers `approve_invoice` / `reject_invoice`
are interleaved as events, reflecting the single-threaded JS event loop in
which every such segment runs atomically.
-/

namespace InvoiceServer

/-- The five values of the status field in the approvals map
(`'pending' | 'approved' | 'rejected' | 'processing' | 'completed'`). -/
inductive Status where
  | pending
  | approved
  | rejected
  | processing
  | completed
deriving DecidableEq, Repr

/-- The string the TS code interpolates for each status value. -/
def statusString : Status → String
  | .pending => "pending"
  | .approved => "approved"
  | .rejected => "rejected"
  | .processing => "processing"
  | .completed => "completed"

/-- One line of `interface InvoiceLine` — item, amount, description.  JS
numbers in the example are integer dollar amounts; modelled as `Int`. -/
structure InvoiceLine where
  item : String
  amount : Int
  description : String
deriving DecidableEq, Repr

/-- The payload of `interface Invoice` — id, lines, derived totalAmount. -/
structure Invoice where
  id : String
  lines : List InvoiceLine
  totalAmount : Int
deriving DecidableEq, Repr

/-- One value of the approvals map: `{status, invoice, result?}`. -/
structure Entry where
  status : Status
  invoice : Invoice
  result : Option String
deriving DecidableEq, Repr

/-- The approvals map, as an association list keyed by invoice id (JS `Map`
with `get`/`set`). -/
abbrev Store := List (String × Entry)

/-- Lookup, i.e. `approvals.get(key)`. -/
def Store.get : Store → String → Option Entry
  | [], _ => none
  | (k, e) :: rest, key => if k = key then some e else Store.get rest key

/-- Update, i.e. `approvals.set(key, e)`: replace in place when the key exists, append
otherwise (JS `Map.set` keeps insertion order). -/
def Store.set : Store → String → Entry → Store
  | [], key, e => [(key, e)]
  | (k, e0) :: rest, key, e =>
      if k = key then (k, e) :: rest else (k, e0) :: Store.set rest key e

/-- The errors the tool handlers throw (`throw new Error(msg)`), classified
per the spec's taxonomy: "not found" vs "not pending". -/
inductive ToolError where
  | NotFoundError (msg : String)
  | InvalidStateError (msg : String)
deriving DecidableEq, Repr

/-- The total, i.e. `lines.reduce((sum, line) => sum + line.amount, 0)`. -/
def totalOf (lines : List InvoiceLine) : Int :=
  lines.foldl (fun sum line => sum + line.amount) 0

/-- The durable-execution id passed to `durableProcessInvoice`:
the template literal `invoice-` followed by the invoice id. -/
def execIdOf (invoice_id : String) : String := "invoice-" ++ invoice_id

/-- Everything the `submit_invoice` handler produces: the mutated approvals
map, the acknowledgement text, and the durable-execution id it starts. -/
structure SubmitOutcome where
  store : Store
  ack : String
  execId : String
deriving DecidableEq, Repr

/-- The `submit_invoice` tool handler: computes the total, stores a fresh
pending entry under the invoice id (unconditionally — `approvals.set`), and
starts the workflow under id `invoice-<id>`. -/
def submit_invoice (store : Store) (invoice_id : String)
    (lines : List InvoiceLine) : SubmitOutcome :=
  let totalAmount := totalOf lines
  let invoice : Invoice := ⟨invoice_id, lines, totalAmount⟩
  { store := Store.set store invoice_id ⟨Status.pending, invoice, none⟩
    ack := "Invoice " ++ invoice_id ++ " submitted for approval. Total: $"
      ++ toString totalAmount
      ++ "\nUse approve_invoice or reject_invoice to respond."
    execId := execIdOf invoice_id }

/-- The `approve_invoice` tool handler.  Returns the (possibly mutated) map
together with either the success text or the thrown error.  The handler throws
before mutating, so on error the map is returned unchanged. -/
def approve_invoice (store : Store) (invoice_id : String) :
    Store × Except ToolError String :=
  match Store.get store invoice_id with
  | none =>
      (store, Except.error (ToolError.NotFoundError
        ("Invoice " ++ invoice_id ++ " not found")))
  | some st =>
      if st.status = Status.pending then
        (Store.set store invoice_id { st with status := Status.approved },
         Except.ok ("Invoice " ++ invoice_id ++ " approved! Processing payments..."))
      else
        (store, Except.error (ToolError.InvalidStateError
          ("Invoice " ++ invoice_id ++ " is not pending (status: "
            ++ statusString st.status ++ ")")))

/-- The `reject_invoice` tool handler, same shape as `approve_invoice`. -/
def reject_invoice (store : Store) (invoice_id : String) :
    Store × Except ToolError String :=
  match Store.get store invoice_id with
  | none =>
      (store, Except.error (ToolError.NotFoundError
        ("Invoice " ++ invoice_id ++ " not found")))
  | some st =>
      if st.status = Status.pending then
        (Store.set store invoice_id { st with status := Status.rejected },
         Except.ok ("Invoice " ++ invoice_id ++ " rejected."))
      else
        (store, Except.error (ToolError.InvalidStateError
          ("Invoice " ++ invoice_id ++ " is not pending (status: "
            ++ statusString st.status ++ ")")))

/-- The `check_invoice_status` tool handler: builds the status text, appending
the result block only when `state.result` is truthy (present and non-empty). -/
def check_invoice_status (store : Store) (invoice_id : String) :
    Except ToolError String :=
  match Store.get store invoice_id with
  | none =>
      Except.error (ToolError.NotFoundError
        ("Invoice " ++ invoice_id ++ " not found"))
  | some st =>
      let base := "Invoice " ++ invoice_id ++ ":\n"
        ++ "Status: " ++ statusString st.status ++ "\n"
        ++ "Total Amount: $" ++ toString st.invoice.totalAmount ++ "\n"
      match st.result with
      | some r => if r = "" then Except.ok base
                  else Except.ok (base ++ "\nResult:\n" ++ r)
      | none => Except.ok base

/-- The payment step `processPayment`: always succeeds and returns its
confirmation string. -/
def processPayment (line : InvoiceLine) : String :=
  "Processed payment for " ++ line.item ++ ": $" ++ toString line.amount

/-- The approval timeout of `processInvoice`: 5 * 60 * 1000 ms. -/
def timeoutMs : Nat := 5 * 60 * 1000

/-- The poll interval of `processInvoice`: 1000 ms. -/
def pollIntervalMs : Nat := 1000

/-- Control point of the `processInvoice` coroutine, one constructor per
suspension region of the TS function:
* `polling e` — at the top of the `while (Date.now() - startTime < timeout)`
  loop, `e` milliseconds after `startTime` (each iteration sleeps
  `pollIntervalMs`, so time advances by that much per poll);
* `deciding` — after the loop, about to read `finalState` and branch;
* `paying rest acc` — inside the `for (const line of invoice.lines)` loop,
  with `rest` the lines not yet processed and `acc` the `results` array;
* `done ret` — the function returned `ret`. -/
inductive Phase where
  | polling (elapsedMs : Nat)
  | deciding
  | paying (rest : List InvoiceLine) (acc : List String)
  | done (ret : String)
deriving DecidableEq, Repr

/-- A system state for one submitted invoice: the shared approvals map, the
workflow control point, and (instrumentation) the list of lines for which
`processPayment` has actually been invoked, in invocation order. -/
structure WfState where
  store : Store
  phase : Phase
  calls : List InvoiceLine
deriving DecidableEq, Repr

/-- One synchronous segment of `processInvoice` for invoice `inv`, from one
suspension point (`await`) to the next.  Matches the TS control flow:

* in the loop, if the elapsed time is still below the timeout, read the
  current map entry: on `approved` break out of the loop, on `rejected`
  return `REJECTED by user`, otherwise sleep one poll interval;
* once out of the loop, read `finalState`: if still `pending` set it to
  `rejected` and return `REJECTED due to timeout`; if `approved` set
  `processing` and enter the payment loop; otherwise return `REJECTED`;
* in the payment loop, process one line per step (`await ctx.run(...)`),
  and when the lines are exhausted set `completed`, store the joined
  results in the entry and return `COMPLETED` with the joined results. -/
def wfStep (inv : Invoice) (s : WfState) : WfState :=
  match s.phase with
  | .polling elapsed =>
      if elapsed < timeoutMs then
        match Store.get s.store inv.id with
        | some st =>
            if st.status = Status.approved then
              { s with phase := .deciding }
            else if st.status = Status.rejected then
              { s with phase := .done "REJECTED by user" }
            else
              { s with phase := .polling (elapsed + pollIntervalMs) }
        | none => { s with phase := .polling (elapsed + pollIntervalMs) }
      else
        { s with phase := .deciding }
  | .deciding =>
      match Store.get s.store inv.id with
      | some st =>
          if st.status = Status.pending then
            { s with
                store := Store.set s.store inv.id { st with status := Status.rejected }
                phase := .done "REJECTED due to timeout" }
          else if st.status = Status.approved then
            { s with
                store := Store.set s.store inv.id { st with status := Status.processing }
                phase := .paying inv.lines [] }
          else
            { s with phase := .done "REJECTED" }
      | none => { s with phase := .done "REJECTED" }
  | .paying rest acc =>
      match rest with
      | [] =>
          match Store.get s.store inv.id with
          | some st =>
              { s with
                  store := Store.set s.store inv.id
                    { st with status := Status.completed
                              result := some (String.intercalate "\n" acc) }
                  phase := .done ("COMPLETED\n" ++ String.intercalate "\n" acc) }
          | none => { s with phase := .done ("COMPLETED\n" ++ String.intercalate "\n" acc) }
      | line :: rest2 =>
          { s with
              phase := .paying rest2 (acc ++ [processPayment line])
              calls := s.calls ++ [line] }
  | .done _ => s

/-- An event of the interleaved system: one workflow segment, or one of the
decision tool handlers firing (their effect on the shared map; a thrown error
leaves the map unchanged). -/
inductive Ev where
  | tick
  | approveEv
  | rejectEv
deriving DecidableEq, Repr

/-- Apply one event.  Handler segments and workflow segments are serialized:
each runs synchronously on the single JS thread between `await`s. -/
def stepEv (inv : Invoice) (s : WfState) (e : Ev) : WfState :=
  match e with
  | .tick => wfStep inv s
  | .approveEv => { s with store := (approve_invoice s.store inv.id).1 }
  | .rejectEv => { s with store := (reject_invoice s.store inv.id).1 }

/-- Run a list of events in order. -/
def runEvs (inv : Invoice) (s : WfState) (es : List Ev) : WfState :=
  es.foldl (stepEv inv) s

/-- The `.then(result => { state.result = result })` callback attached by
`submit_invoice`: once the workflow has returned, store its return value in
the entry's result field. -/
def recordResult (inv : Invoice) (s : WfState) : WfState :=
  match s.phase with
  | .done r =>
      match Store.get s.store inv.id with
      | some st =>
          { s with store := Store.set s.store inv.id { st with result := some r } }
      | none => s
  | _ => s

/-- System state right after `submit_invoice` ran and `processInvoice` started
(a plain async function body runs synchronously up to its first `await`, so
the initial `state.status = 'pending'` write happens before any interleaving).
Returns the invoice object and the initial `WfState`. -/
def initWf (store0 : Store) (invoice_id : String) (lines : List InvoiceLine) :
    Invoice × WfState :=
  let sub := submit_invoice store0 invoice_id lines
  let inv : Invoice := ⟨invoice_id, lines, totalOf lines⟩
  let store1 :=
    match Store.get sub.store invoice_id with
    | some st => Store.set sub.store invoice_id { st with status := Status.pending }
    | none => sub.store
  (inv, ⟨store1, Phase.polling 0, []⟩)

/-- The status stored under an id, when the id is present. -/
def statusAt (store : Store) (invoice_id : String) : Option Status :=
  (Store.get store invoice_id).map Entry.status

/-- The string `needle` occurs as a contiguous substring of `hay`. -/
def strOccurs (hay needle : String) : Prop :=
  ∃ p q : String, hay = p ++ (needle ++ q)

/-- The transitions a single serialized operation of the system is allowed to
perform on a stored status, per the spec's state machine: stay put, or move
one edge along `pending → approved → processing → completed` or
`pending → rejected`. -/
def allowedStep (a b : Status) : Prop :=
  a = b
    ∨ (a = Status.pending ∧ b = Status.approved)
    ∨ (a = Status.pending ∧ b = Status.rejected)
    ∨ (a = Status.approved ∧ b = Status.processing)
    ∨ (a = Status.processing ∧ b = Status.completed)

instance (a b : Status) : Decidable (allowedStep a b) := by
  unfold allowedStep; infer_instance

/-- The statuses the store can hold while the workflow is still in (or just
out of) its polling loop: the submitted `pending`, or a decision. -/
def pollStatus (st : Entry) : Prop :=
  st.status = Status.pending ∨ st.status = Status.approved
    ∨ st.status = Status.rejected

/-- Reachability invariant of the interleaved system for one invoice:
the entry exists, and the stored status, the payment-call log and the phase
agree (payments happen only while `processing`; a rejection means no payment
was ever invoked; a completed run paid exactly the input lines in order). -/
def Inv (inv : Invoice) (s : WfState) : Prop :=
  ∃ st, Store.get s.store inv.id = some st ∧
    match s.phase with
    | Phase.polling _ => pollStatus st ∧ s.calls = []
    | Phase.deciding => pollStatus st ∧ s.calls = []
    | Phase.paying rest acc =>
        st.status = Status.processing ∧ inv.lines = s.calls ++ rest
          ∧ acc = s.calls.map processPayment
    | Phase.done r =>
        (st.status = Status.rejected ∧ s.calls = []
          ∧ (r = "REJECTED by user" ∨ r = "REJECTED due to timeout"
              ∨ r = "REJECTED"))
        ∨ (st.status = Status.completed ∧ s.calls = inv.lines
          ∧ r = "COMPLETED\n"
              ++ String.intercalate "\n" (inv.lines.map processPayment))

theorem Store.get_set_self (s : Store) (k : String) (e : Entry) :
    Store.get (Store.set s k e) k = some e := by
  induction s with
  | nil => simp [Store.set, Store.get]
  | cons head tail ih =>
      obtain ⟨k0, e0⟩ := head
      by_cases h : k0 = k
      · simp [Store.set, Store.get, h]
      · simp [Store.set, Store.get, h, ih]

theorem Store.set_set_self (s : Store) (k : String) (e1 e2 : Entry) :
    Store.set (Store.set s k e1) k e2 = Store.set s k e2 := by
  induction s with
  | nil => simp [Store.set]
  | cons head tail ih =>
      obtain ⟨k0, e0⟩ := head
      by_cases h : k0 = k
      · simp [Store.set, h]
      · simp [Store.set, h, ih]

theorem runEvs_nil (inv : Invoice) (s : WfState) : runEvs inv s [] = s := rfl

theorem runEvs_cons (inv : Invoice) (s : WfState) (e : Ev) (es : List Ev) :
    runEvs inv s (e :: es) = runEvs inv (stepEv inv s e) es := rfl

theorem runEvs_append (inv : Invoice) (s : WfState) (es1 es2 : List Ev) :
    runEvs inv s (es1 ++ es2) = runEvs inv (runEvs inv s es1) es2 :=
  List.foldl_append ..

/-- After `submit_invoice` the initial in-workflow `state.status = 'pending'`
write is a no-op: the initial system state is the freshly submitted store with
the workflow at the top of its polling loop. -/
theorem initWf_eq (store0 : Store) (invoice_id : String)
    (lines : List InvoiceLine) :
    initWf store0 invoice_id lines
      = (⟨invoice_id, lines, totalOf lines⟩,
         ⟨Store.set store0 invoice_id
            ⟨Status.pending, ⟨invoice_id, lines, totalOf lines⟩, none⟩,
          Phase.polling 0, []⟩) := by
  simp [initWf, submit_invoice, Store.get_set_self, Store.set_set_self]

/-- The code's `reduce` over line amounts computes the sum of the amounts. -/
theorem totalOf_eq_sum (lines : List InvoiceLine) :
    totalOf lines = (lines.map InvoiceLine.amount).sum := by
  rw [totalOf, List.sum_eq_foldl, List.foldl_map]

/-- While the stored status stays `pending`, each poll just sleeps: `k` ticks
advance the elapsed time by `k` poll intervals and change nothing else, as
long as the deadline is not passed. -/
theorem runEvs_polling_pending (inv : Invoice) (store : Store) (st : Entry)
    (calls : List InvoiceLine) (hget : Store.get store inv.id = some st)
    (hst : st.status = Status.pending) :
    ∀ (k e : Nat), e + pollIntervalMs * k ≤ timeoutMs →
      runEvs inv ⟨store, Phase.polling e, calls⟩ (List.replicate k Ev.tick)
        = ⟨store, Phase.polling (e + pollIntervalMs * k), calls⟩ := by
  intro k
  induction k with
  | zero => intro e _; simp [runEvs]
  | succ n ih =>
      intro e h
      have he : e < timeoutMs := by
        simp only [pollIntervalMs, timeoutMs] at h ⊢; omega
      rw [List.replicate_succ, runEvs_cons]
      have hstep : stepEv inv ⟨store, Phase.polling e, calls⟩ Ev.tick
          = ⟨store, Phase.polling (e + pollIntervalMs), calls⟩ := by
        simp [stepEv, wfStep, he, hget, hst]
      rw [hstep]
      have h2 : (e + pollIntervalMs) + pollIntervalMs * n ≤ timeoutMs := by
        simp only [pollIntervalMs, timeoutMs] at h ⊢; omega
      rw [ih (e + pollIntervalMs) h2]
      have h3 : e + pollIntervalMs + pollIntervalMs * n
          = e + pollIntervalMs * (n + 1) := by ring
      rw [h3]

/-- The payment loop: one tick per line, in input order.  After as many ticks
as there are remaining lines, the results array holds the payment strings in
order and every line has been paid, with the store untouched. -/
theorem runEvs_paying (inv : Invoice) (store : Store) :
    ∀ (rest : List InvoiceLine) (acc : List String)
      (calls : List InvoiceLine),
      runEvs inv ⟨store, Phase.paying rest acc, calls⟩
          (List.replicate rest.length Ev.tick)
        = ⟨store, Phase.paying [] (acc ++ rest.map processPayment),
            calls ++ rest⟩ := by
  intro rest
  induction rest with
  | nil => intro acc calls; simp [runEvs]
  | cons l rest2 ih =>
      intro acc calls
      rw [List.length_cons, List.replicate_succ, runEvs_cons]
      have hstep : stepEv inv ⟨store, Phase.paying (l :: rest2) acc, calls⟩ Ev.tick
          = ⟨store, Phase.paying rest2 (acc ++ [processPayment l]),
              calls ++ [l]⟩ := by
        simp [stepEv, wfStep]
      rw [hstep, ih]
      simp

/-- Effect of the `approve_invoice` handler on the looked-up entry: a pending
entry becomes approved, anything else is left alone (the handler throws). -/
theorem approve_get (store : Store) (invoice_id : String) (st : Entry)
    (hget : Store.get store invoice_id = some st) :
    Store.get ((approve_invoice store invoice_id).1) invoice_id
      = some (if st.status = Status.pending
              then { st with status := Status.approved } else st) := by
  by_cases h : st.status = Status.pending
  · simp [approve_invoice, hget, h, Store.get_set_self]
  · simp [approve_invoice, hget, h]

/-- Effect of the `reject_invoice` handler on the looked-up entry. -/
theorem reject_get (store : Store) (invoice_id : String) (st : Entry)
    (hget : Store.get store invoice_id = some st) :
    Store.get ((reject_invoice store invoice_id).1) invoice_id
      = some (if st.status = Status.pending
              then { st with status := Status.rejected } else st) := by
  by_cases h : st.status = Status.pending
  · simp [reject_invoice, hget, h, Store.get_set_self]
  · simp [reject_invoice, hget, h]

/-- One `approve_invoice` call preserves the reachability invariant. -/
theorem Inv_approveEv (inv : Invoice) (s : WfState) (h : Inv inv s) :
    Inv inv (stepEv inv s Ev.approveEv) := by
  obtain ⟨store, phase, calls⟩ := s
  obtain ⟨st, hget, hrest⟩ := h
  have hg2 := approve_get store inv.id st hget
  by_cases hp : st.status = Status.pending
  · rw [if_pos hp] at hg2
    refine ⟨{ st with status := Status.approved }, hg2, ?_⟩
    cases phase with
    | polling e0 => exact ⟨Or.inr (Or.inl rfl), hrest.2⟩
    | deciding => exact ⟨Or.inr (Or.inl rfl), hrest.2⟩
    | paying rest acc => simp [hp] at hrest
    | done r =>
        rcases hrest with ⟨h1, _⟩ | ⟨h1, _⟩ <;> rw [hp] at h1 <;> simp at h1
  · rw [if_neg hp] at hg2
    exact ⟨st, hg2, hrest⟩

/-- One `reject_invoice` call preserves the reachability invariant. -/
theorem Inv_rejectEv (inv : Invoice) (s : WfState) (h : Inv inv s) :
    Inv inv (stepEv inv s Ev.rejectEv) := by
  obtain ⟨store, phase, calls⟩ := s
  obtain ⟨st, hget, hrest⟩ := h
  have hg2 := reject_get store inv.id st hget
  by_cases hp : st.status = Status.pending
  · rw [if_pos hp] at hg2
    refine ⟨{ st with status := Status.rejected }, hg2, ?_⟩
    cases phase with
    | polling e0 => exact ⟨Or.inr (Or.inr rfl), hrest.2⟩
    | deciding => exact ⟨Or.inr (Or.inr rfl), hrest.2⟩
    | paying rest acc => simp [hp] at hrest
    | done r =>
        rcases hrest with ⟨h1, _⟩ | ⟨h1, _⟩ <;> rw [hp] at h1 <;> simp at h1
  · rw [if_neg hp] at hg2
    exact ⟨st, hg2, hrest⟩

/-- One workflow segment preserves the reachability invariant. -/
theorem Inv_tick (inv : Invoice) (s : WfState) (h : Inv inv s) :
    Inv inv (stepEv inv s Ev.tick) := by
  obtain ⟨store, phase, calls⟩ := s
  obtain ⟨st, hget, hrest⟩ := h
  show Inv inv (wfStep inv ⟨store, phase, calls⟩)
  cases phase with
  | polling e0 =>
      obtain ⟨hps, hcalls⟩ := hrest
      by_cases he : e0 < timeoutMs
      · rcases hps with hp | hp | hp
        · have hw : wfStep inv ⟨store, Phase.polling e0, calls⟩
              = ⟨store, Phase.polling (e0 + pollIntervalMs), calls⟩ := by
            simp [wfStep, he, hget, hp]
          rw [hw]; exact ⟨st, hget, Or.inl hp, hcalls⟩
        · have hw : wfStep inv ⟨store, Phase.polling e0, calls⟩
              = ⟨store, Phase.deciding, calls⟩ := by
            simp [wfStep, he, hget, hp]
          rw [hw]; exact ⟨st, hget, Or.inr (Or.inl hp), hcalls⟩
        · have hw : wfStep inv ⟨store, Phase.polling e0, calls⟩
              = ⟨store, Phase.done "REJECTED by user", calls⟩ := by
            simp [wfStep, he, hget, hp]
          rw [hw]; exact ⟨st, hget, Or.inl ⟨hp, hcalls, Or.inl rfl⟩⟩
      · have hw : wfStep inv ⟨store, Phase.polling e0, calls⟩
            = ⟨store, Phase.deciding, calls⟩ := by
          simp [wfStep, he]
        rw [hw]; exact ⟨st, hget, hps, hcalls⟩
  | deciding =>
      obtain ⟨hps, hcalls⟩ := hrest
      rcases hps with hp | hp | hp
      · have hw : wfStep inv ⟨store, Phase.deciding, calls⟩
            = ⟨Store.set store inv.id { st with status := Status.rejected },
               Phase.done "REJECTED due to timeout", calls⟩ := by
          simp [wfStep, hget, hp]
        rw [hw]
        exact ⟨_, Store.get_set_self .., Or.inl ⟨rfl, hcalls, Or.inr (Or.inl rfl)⟩⟩
      · have hw : wfStep inv ⟨store, Phase.deciding, calls⟩
            = ⟨Store.set store inv.id { st with status := Status.processing },
               Phase.paying inv.lines [], calls⟩ := by
          simp [wfStep, hget, hp]
        rw [hw]
        have hc0 : calls = [] := hcalls
        exact ⟨_, Store.get_set_self .., rfl, by simp [hc0], by simp [hc0]⟩
      · have hw : wfStep inv ⟨store, Phase.deciding, calls⟩
            = ⟨store, Phase.done "REJECTED", calls⟩ := by
          simp [wfStep, hget, hp]
        rw [hw]; exact ⟨st, hget, Or.inl ⟨hp, hcalls, Or.inr (Or.inr rfl)⟩⟩
  | paying rest acc =>
      obtain ⟨hproc, hlines, hacc⟩ := hrest
      cases rest with
      | nil =>
          have hw : wfStep inv ⟨store, Phase.paying [] acc, calls⟩
              = ⟨Store.set store inv.id
                   { st with status := Status.completed
                             result := some (String.intercalate "\n" acc) },
                 Phase.done ("COMPLETED\n" ++ String.intercalate "\n" acc),
                 calls⟩ := by
            simp [wfStep, hget]
          rw [hw]
          have hc : calls = inv.lines := by simpa using hlines.symm
          refine ⟨_, Store.get_set_self .., Or.inr ⟨rfl, hc, ?_⟩⟩
          rw [hacc, hc]
      | cons l rest2 =>
          have hw : wfStep inv ⟨store, Phase.paying (l :: rest2) acc, calls⟩
              = ⟨store, Phase.paying rest2 (acc ++ [processPayment l]),
                 calls ++ [l]⟩ := by
            simp [wfStep]
          rw [hw]
          refine ⟨st, hget, hproc, ?_, ?_⟩
          · rw [hlines]; simp
          · rw [hacc]; simp
  | done r =>
      exact ⟨st, hget, hrest⟩

/-- Every event preserves the reachability invariant. -/
theorem Inv_step (inv : Invoice) (s : WfState) (e : Ev) (h : Inv inv s) :
    Inv inv (stepEv inv s e) := by
  cases e with
  | tick => exact Inv_tick inv s h
  | approveEv => exact Inv_approveEv inv s h
  | rejectEv => exact Inv_rejectEv inv s h

/-- The invariant holds in the initial state after `submit_invoice`. -/
theorem Inv_init (store0 : Store) (invoice_id : String)
    (lines : List InvoiceLine) :
    Inv (initWf store0 invoice_id lines).1 (initWf store0 invoice_id lines).2 := by
  rw [initWf_eq]
  exact ⟨_, Store.get_set_self .., Or.inl rfl, rfl⟩

/-- The invariant holds all along any interleaving of workflow segments and
decision handler calls. -/
theorem Inv_runEvs (inv : Invoice) (s : WfState) (h : Inv inv s)
    (es : List Ev) : Inv inv (runEvs inv s es) := by
  induction es generalizing s with
  | nil => exact h
  | cons e es ih => rw [runEvs_cons]; exact ih _ (Inv_step inv s e h)

/-- Once the status is `approved`, the next poll leaves the loop: either the
`break` fires (deadline not yet passed) or the loop condition fails; both land
at the post-loop branch with the store untouched. -/
theorem wfStep_polling_approved (inv : Invoice) (store : Store) (st : Entry)
    (e0 : Nat) (calls : List InvoiceLine)
    (hget : Store.get store inv.id = some st)
    (hst : st.status = Status.approved) :
    wfStep inv ⟨store, Phase.polling e0, calls⟩ = ⟨store, Phase.deciding, calls⟩ := by
  by_cases he : e0 < timeoutMs <;> simp [wfStep, he, hget, hst]

/-- With no decision, 301 workflow segments take the run exactly to the
post-loop branch, the store still holding the fresh pending entry. -/
theorem run_to_deciding (store0 : Store) (invoice_id : String)
    (lines : List InvoiceLine) :
    runEvs ⟨invoice_id, lines, totalOf lines⟩
        ⟨Store.set store0 invoice_id
           ⟨Status.pending, ⟨invoice_id, lines, totalOf lines⟩, none⟩,
         Phase.polling 0, []⟩
        (List.replicate 301 Ev.tick)
      = ⟨Store.set store0 invoice_id
           ⟨Status.pending, ⟨invoice_id, lines, totalOf lines⟩, none⟩,
         Phase.deciding, []⟩ := by
  have h : (301 : Nat) = 300 + 1 := by norm_num
  rw [h, List.replicate_add, runEvs_append, List.replicate_one]
  rw [runEvs_polling_pending _ _ _ _ (Store.get_set_self ..) rfl 300 0
    (by norm_num [pollIntervalMs, timeoutMs])]
  have h2 : 0 + pollIntervalMs * 300 = 300000 := by norm_num [pollIntervalMs]
  rw [h2]
  simp [runEvs, stepEv, wfStep, timeoutMs]

/-- With no decision at all, 302 workflow segments complete the timeout path:
the stored status flips `pending → rejected` and the function returns the
timeout rejection string. -/
theorem timeout_run (store0 : Store) (invoice_id : String)
    (lines : List InvoiceLine) :
    runEvs ⟨invoice_id, lines, totalOf lines⟩
        ⟨Store.set store0 invoice_id
           ⟨Status.pending, ⟨invoice_id, lines, totalOf lines⟩, none⟩,
         Phase.polling 0, []⟩
        (List.replicate 302 Ev.tick)
      = ⟨Store.set store0 invoice_id
           ⟨Status.rejected, ⟨invoice_id, lines, totalOf lines⟩, none⟩,
         Phase.done "REJECTED due to timeout", []⟩ := by
  have h : (302 : Nat) = 301 + 1 := by norm_num
  rw [h, List.replicate_add, runEvs_append, List.replicate_one, run_to_deciding]
  simp [runEvs, stepEv, wfStep, Store.get_set_self, Store.set_set_self]

/-- An explicit rejection after `a` polls (decision observed while still
polling) makes the next poll return the user rejection string. -/
theorem reject_run (store0 : Store) (invoice_id : String)
    (lines : List InvoiceLine) (a : Nat) (ha : a ≤ 299) :
    runEvs ⟨invoice_id, lines, totalOf lines⟩
        ⟨Store.set store0 invoice_id
           ⟨Status.pending, ⟨invoice_id, lines, totalOf lines⟩, none⟩,
         Phase.polling 0, []⟩
        (List.replicate a Ev.tick ++ [Ev.rejectEv, Ev.tick])
      = ⟨Store.set store0 invoice_id
           ⟨Status.rejected, ⟨invoice_id, lines, totalOf lines⟩, none⟩,
         Phase.done "REJECTED by user", []⟩ := by
  rw [runEvs_append]
  rw [runEvs_polling_pending _ _ _ _ (Store.get_set_self ..) rfl a 0
    (by simp only [pollIntervalMs, timeoutMs]; omega)]
  have he : pollIntervalMs * a < timeoutMs := by
    simp only [pollIntervalMs, timeoutMs]; omega
  simp [runEvs, stepEv, wfStep, reject_invoice, Store.get_set_self,
    Store.set_set_self, he]

/-- An approval after `a` polls sends the run down the payment path: two
segments to leave the loop and branch, one segment per line item, and one
final segment that records the joined results and completes.  Every line is
paid, in input order. -/
theorem approved_run (store0 : Store) (invoice_id : String)
    (lines : List InvoiceLine) (a : Nat) (ha : a ≤ 300) :
    runEvs ⟨invoice_id, lines, totalOf lines⟩
        ⟨Store.set store0 invoice_id
           ⟨Status.pending, ⟨invoice_id, lines, totalOf lines⟩, none⟩,
         Phase.polling 0, []⟩
        (List.replicate a Ev.tick
          ++ Ev.approveEv :: List.replicate (lines.length + 3) Ev.tick)
      = ⟨Store.set store0 invoice_id
           ⟨Status.completed, ⟨invoice_id, lines, totalOf lines⟩,
            some (String.intercalate "\n" (lines.map processPayment))⟩,
         Phase.done ("COMPLETED\n"
            ++ String.intercalate "\n" (lines.map processPayment)),
         lines⟩ := by
  rw [runEvs_append]
  rw [runEvs_polling_pending _ _ _ _ (Store.get_set_self ..) rfl a 0
    (by simp only [pollIntervalMs, timeoutMs]; omega)]
  have hsplit : List.replicate (lines.length + 3) Ev.tick
      = Ev.tick :: (Ev.tick :: (List.replicate lines.length Ev.tick
          ++ [Ev.tick])) := by
    have h3 : lines.length + 3 = 1 + (1 + (lines.length + 1)) := by omega
    rw [h3, List.replicate_add, List.replicate_add, List.replicate_add,
      List.replicate_one]
    simp
  rw [hsplit, runEvs_cons]
  have hstep1 : stepEv ⟨invoice_id, lines, totalOf lines⟩
      ⟨Store.set store0 invoice_id
         ⟨Status.pending, ⟨invoice_id, lines, totalOf lines⟩, none⟩,
       Phase.polling (0 + pollIntervalMs * a), []⟩ Ev.approveEv
      = ⟨Store.set store0 invoice_id
           ⟨Status.approved, ⟨invoice_id, lines, totalOf lines⟩, none⟩,
         Phase.polling (0 + pollIntervalMs * a), []⟩ := by
    simp [stepEv, approve_invoice, Store.get_set_self, Store.set_set_self]
  rw [hstep1, runEvs_cons]
  rw [show stepEv ⟨invoice_id, lines, totalOf lines⟩
      ⟨Store.set store0 invoice_id
         ⟨Status.approved, ⟨invoice_id, lines, totalOf lines⟩, none⟩,
       Phase.polling (0 + pollIntervalMs * a), []⟩ Ev.tick
      = ⟨Store.set store0 invoice_id
           ⟨Status.approved, ⟨invoice_id, lines, totalOf lines⟩, none⟩,
         Phase.deciding, []⟩ from
    wfStep_polling_approved _ _ _ _ _ (Store.get_set_self ..) rfl]
  rw [runEvs_cons]
  have hstep2 : stepEv ⟨invoice_id, lines, totalOf lines⟩
      ⟨Store.set store0 invoice_id
         ⟨Status.approved, ⟨invoice_id, lines, totalOf lines⟩, none⟩,
       Phase.deciding, []⟩ Ev.tick
      = ⟨Store.set store0 invoice_id
           ⟨Status.processing, ⟨invoice_id, lines, totalOf lines⟩, none⟩,
         Phase.paying lines [], []⟩ := by
    simp [stepEv, wfStep, Store.get_set_self, Store.set_set_self]
  rw [hstep2, runEvs_append, runEvs_paying]
  simp [runEvs, stepEv, wfStep, Store.get_set_self, Store.set_set_self]

/-- On any state satisfying the reachability invariant, a single serialized
event changes the stored status only along an allowed forward edge. -/
theorem allowed_of_Inv (inv : Invoice) (s : WfState) (e : Ev) (h : Inv inv s) :
    ∀ st st', Store.get s.store inv.id = some st →
      Store.get (stepEv inv s e).store inv.id = some st' →
      allowedStep st.status st'.status := by
  obtain ⟨store, phase, calls⟩ := s
  obtain ⟨st0, hget0, hrest⟩ := h
  intro st st' hget hget'
  have hst0 : st0 = st := by
    rw [hget0] at hget; exact Option.some.inj hget
  subst hst0
  cases e with
  | approveEv =>
      have hg2 := approve_get store inv.id st0 hget0
      rw [show (stepEv inv ⟨store, phase, calls⟩ Ev.approveEv).store
          = (approve_invoice store inv.id).1 from rfl, hg2] at hget'
      have hst' := Option.some.inj hget'
      by_cases hp : st0.status = Status.pending
      · rw [if_pos hp] at hst'
        rw [← hst']
        exact Or.inr (Or.inl ⟨hp, rfl⟩)
      · rw [if_neg hp] at hst'
        rw [← hst']
        exact Or.inl rfl
  | rejectEv =>
      have hg2 := reject_get store inv.id st0 hget0
      rw [show (stepEv inv ⟨store, phase, calls⟩ Ev.rejectEv).store
          = (reject_invoice store inv.id).1 from rfl, hg2] at hget'
      have hst' := Option.some.inj hget'
      by_cases hp : st0.status = Status.pending
      · rw [if_pos hp] at hst'
        rw [← hst']
        exact Or.inr (Or.inr (Or.inl ⟨hp, rfl⟩))
      · rw [if_neg hp] at hst'
        rw [← hst']
        exact Or.inl rfl
  | tick =>
      cases phase with
      | polling e0 =>
          obtain ⟨hps, _⟩ := hrest
          have hstore : (stepEv inv ⟨store, Phase.polling e0, calls⟩ Ev.tick).store
              = store := by
            by_cases he : e0 < timeoutMs <;>
              rcases hps with hp | hp | hp <;>
              simp [stepEv, wfStep, he, hget0, hp]
          rw [hstore, hget0] at hget'
          rw [← Option.some.inj hget']
          exact Or.inl rfl
      | deciding =>
          obtain ⟨hps, _⟩ := hrest
          rcases hps with hp | hp | hp
          · have hstore : (stepEv inv ⟨store, Phase.deciding, calls⟩ Ev.tick).store
                = Store.set store inv.id { st0 with status := Status.rejected } := by
              simp [stepEv, wfStep, hget0, hp]
            rw [hstore, Store.get_set_self] at hget'
            rw [← Option.some.inj hget']
            exact Or.inr (Or.inr (Or.inl ⟨hp, rfl⟩))
          · have hstore : (stepEv inv ⟨store, Phase.deciding, calls⟩ Ev.tick).store
                = Store.set store inv.id { st0 with status := Status.processing } := by
              simp [stepEv, wfStep, hget0, hp]
            rw [hstore, Store.get_set_self] at hget'
            rw [← Option.some.inj hget']
            exact Or.inr (Or.inr (Or.inr (Or.inl ⟨hp, rfl⟩)))
          · have hstore : (stepEv inv ⟨store, Phase.deciding, calls⟩ Ev.tick).store
                = store := by
              simp [stepEv, wfStep, hget0, hp]
            rw [hstore, hget0] at hget'
            rw [← Option.some.inj hget']
            exact Or.inl rfl
      | paying rest acc =>
          obtain ⟨hproc, _, _⟩ := hrest
          cases rest with
          | nil =>
              have hstore : (stepEv inv ⟨store, Phase.paying [] acc, calls⟩ Ev.tick).store
                  = Store.set store inv.id
                      { st0 with status := Status.completed
                                 result := some (String.intercalate "\n" acc) } := by
                simp [stepEv, wfStep, hget0]
              rw [hstore, Store.get_set_self] at hget'
              rw [← Option.some.inj hget']
              exact Or.inr (Or.inr (Or.inr (Or.inr ⟨hproc, rfl⟩)))
          | cons l rest2 =>
              have hstore : (stepEv inv ⟨store, Phase.paying (l :: rest2) acc, calls⟩
                    Ev.tick).store = store := by
                simp [stepEv, wfStep]
              rw [hstore, hget0] at hget'
              rw [← Option.some.inj hget']
              exact Or.inl rfl
      | done r =>
          have hstore : (stepEv inv ⟨store, Phase.done r, calls⟩ Ev.tick).store
              = store := by
            simp [stepEv, wfStep]
          rw [hstore, hget0] at hget'
          rw [← Option.some.inj hget']
          exact Or.inl rfl

/-- The deferred `.then` result write never changes the stored status. -/
theorem recordResult_status (inv : Invoice) (s : WfState) :
    ∀ st st', Store.get s.store inv.id = some st →
      Store.get (recordResult inv s).store inv.id = some st' →
      st'.status = st.status := by
  obtain ⟨store, phase, calls⟩ := s
  intro st st' hget hget'
  cases phase with
  | done r =>
      rw [show (recordResult inv ⟨store, Phase.done r, calls⟩).store
          = match Store.get store inv.id with
            | some st0 => Store.set store inv.id { st0 with result := some r }
            | none => store from by
        simp [recordResult]; split <;> simp_all] at hget'
      rw [hget, Store.get_set_self] at hget'
      rw [← Option.some.inj hget']
  | polling e0 =>
      rw [show (recordResult inv ⟨store, Phase.polling e0, calls⟩).store = store
        from rfl, hget] at hget'
      rw [← Option.some.inj hget']
  | deciding =>
      rw [show (recordResult inv ⟨store, Phase.deciding, calls⟩).store = store
        from rfl, hget] at hget'
      rw [← Option.some.inj hget']
  | paying rest acc =>
      rw [show (recordResult inv ⟨store, Phase.paying rest acc, calls⟩).store = store
        from rfl, hget] at hget'
      rw [← Option.some.inj hget']

/-- C1 (counterexample): submit is not idempotent in the stored state.  After
submitting `INV-1` and approving it (stored status `approved`), a second
`submit_invoice` with the same id replaces the stored entry with a fresh
pending one instead of returning/resuming the state of the first call. -/
theorem submit_resets_stored_state_cx :
    statusAt ((approve_invoice
        (submit_invoice [] "INV-1"
          [⟨"consulting", 100, "c"⟩, ⟨"expenses", 50, "e"⟩]).store "INV-1").1)
      "INV-1" = some Status.approved
    ∧ Store.get (submit_invoice
        ((approve_invoice
          (submit_invoice [] "INV-1"
            [⟨"consulting", 100, "c"⟩, ⟨"expenses", 50, "e"⟩]).store "INV-1").1)
        "INV-1" [⟨"consulting", 100, "c"⟩, ⟨"expenses", 50, "e"⟩]).store "INV-1"
      = some ⟨Status.pending,
          ⟨"INV-1", [⟨"consulting", 100, "c"⟩, ⟨"expenses", 50, "e"⟩], 150⟩,
          none⟩ := by
  decide

/-- C1 (amended): a second `submit_invoice` with the same id starts the
durable workflow under the same execution id `invoice-<id>` (so the durable
layer can deduplicate the execution), and an immediately repeated submit
leaves the stored map unchanged; but the handler always (re)writes a fresh
pending entry for the id rather than returning the state of the first call. -/
theorem submit_execid_stable_and_overwrites (store : Store)
    (invoice_id : String) (lines : List InvoiceLine) :
    (submit_invoice (submit_invoice store invoice_id lines).store
        invoice_id lines).store
      = (submit_invoice store invoice_id lines).store
    ∧ (submit_invoice (submit_invoice store invoice_id lines).store
        invoice_id lines).execId
      = (submit_invoice store invoice_id lines).execId
    ∧ Store.get (submit_invoice store invoice_id lines).store invoice_id
      = some ⟨Status.pending, ⟨invoice_id, lines, totalOf lines⟩, none⟩ := by
  refine ⟨?_, rfl, ?_⟩
  · simp [submit_invoice, Store.set_set_self]
  · simp [submit_invoice, Store.get_set_self]

/-- C3: `approve_invoice` and `reject_invoice` on an unknown id fail with the
not-found error, and on an id whose status is not `pending` fail with the
invalid-state error; in both cases the approvals map is returned unchanged. -/
theorem decision_non_pending_rejected (store : Store) (invoice_id : String) :
    (Store.get store invoice_id = none →
        approve_invoice store invoice_id
          = (store, Except.error (ToolError.NotFoundError
              ("Invoice " ++ invoice_id ++ " not found")))
        ∧ reject_invoice store invoice_id
          = (store, Except.error (ToolError.NotFoundError
              ("Invoice " ++ invoice_id ++ " not found"))))
    ∧ ∀ st, Store.get store invoice_id = some st →
        st.status ≠ Status.pending →
        approve_invoice store invoice_id
          = (store, Except.error (ToolError.InvalidStateError
              ("Invoice " ++ invoice_id ++ " is not pending (status: "
                ++ statusString st.status ++ ")")))
        ∧ reject_invoice store invoice_id
          = (store, Except.error (ToolError.InvalidStateError
              ("Invoice " ++ invoice_id ++ " is not pending (status: "
                ++ statusString st.status ++ ")"))) := by
  constructor
  · intro h
    exact ⟨by simp [approve_invoice, h], by simp [reject_invoice, h]⟩
  · intro st h hs
    exact ⟨by simp [approve_invoice, h, hs], by simp [reject_invoice, h, hs]⟩

/-- C3 (witness): on a store holding `INV-1` as completed, approving `INV-1`
and approving the unknown `INV-404` both fail and leave the store unchanged. -/
theorem decision_non_pending_rejected_witness :
    approve_invoice
        [("INV-1", ⟨Status.completed, ⟨"INV-1", [], 0⟩, none⟩)] "INV-1"
      = ([("INV-1", ⟨Status.completed, ⟨"INV-1", [], 0⟩, none⟩)],
         Except.error (ToolError.InvalidStateError
           "Invoice INV-1 is not pending (status: completed)"))
    ∧ approve_invoice
        [("INV-1", ⟨Status.completed, ⟨"INV-1", [], 0⟩, none⟩)] "INV-404"
      = ([("INV-1", ⟨Status.completed, ⟨"INV-1", [], 0⟩, none⟩)],
         Except.error (ToolError.NotFoundError "Invoice INV-404 not found")) :=
  ⟨((decision_non_pending_rejected
      [("INV-1", ⟨Status.completed, ⟨"INV-1", [], 0⟩, none⟩)] "INV-1").2
      ⟨Status.completed, ⟨"INV-1", [], 0⟩, none⟩ (by decide) (by decide)).1,
   ((decision_non_pending_rejected
      [("INV-1", ⟨Status.completed, ⟨"INV-1", [], 0⟩, none⟩)] "INV-404").1
      (by decide)).1⟩

/-- C8: the total recorded for a submitted invoice, the total in the submit
acknowledgement and the total reported by `check_invoice_status` all equal
the sum of the line amounts; e.g. lines of 100 and 50 give 150. -/
theorem total_amount_is_sum (store : Store) (invoice_id : String)
    (lines : List InvoiceLine) :
    Store.get (submit_invoice store invoice_id lines).store invoice_id
      = some ⟨Status.pending,
          ⟨invoice_id, lines, (lines.map InvoiceLine.amount).sum⟩, none⟩
    ∧ (submit_invoice store invoice_id lines).ack
      = "Invoice " ++ invoice_id ++ " submitted for approval. Total: $"
          ++ toString ((lines.map InvoiceLine.amount).sum)
          ++ "\nUse approve_invoice or reject_invoice to respond."
    ∧ check_invoice_status (submit_invoice store invoice_id lines).store
        invoice_id
      = Except.ok ("Invoice " ++ invoice_id ++ ":\n" ++ "Status: "
          ++ "pending" ++ "\n" ++ "Total Amount: $"
          ++ toString ((lines.map InvoiceLine.amount).sum) ++ "\n")
    ∧ totalOf [⟨"consulting", 100, "c"⟩, ⟨"expenses", 50, "e"⟩] = 150 := by
  refine ⟨?_, ?_, ?_, by decide⟩
  · simp [submit_invoice, Store.get_set_self, totalOf_eq_sum]
  · simp [submit_invoice, totalOf_eq_sum]
  · simp [check_invoice_status, submit_invoice, Store.get_set_self,
      statusString, totalOf_eq_sum]

/-- C2: with no decision, the execution is still pending when the deadline
elapses (301 segments: all 300 polls plus the loop exit), the next workflow
segment transitions the stored status `pending → rejected`, and a subsequent
`check_invoice_status` reports status rejected with the timeout reason. -/
theorem timeout_auto_rejection (store0 : Store) (invoice_id : String)
    (lines : List InvoiceLine) :
    statusAt (runEvs (initWf store0 invoice_id lines).1
        (initWf store0 invoice_id lines).2
        (List.replicate 301 Ev.tick)).store invoice_id = some Status.pending
    ∧ Store.get (recordResult (initWf store0 invoice_id lines).1
        (runEvs (initWf store0 invoice_id lines).1
          (initWf store0 invoice_id lines).2
          (List.replicate 302 Ev.tick))).store invoice_id
      = some ⟨Status.rejected, ⟨invoice_id, lines, totalOf lines⟩,
          some "REJECTED due to timeout"⟩
    ∧ check_invoice_status (recordResult (initWf store0 invoice_id lines).1
        (runEvs (initWf store0 invoice_id lines).1
          (initWf store0 invoice_id lines).2
          (List.replicate 302 Ev.tick))).store invoice_id
      = Except.ok ("Invoice " ++ invoice_id ++ ":\n" ++ "Status: "
          ++ "rejected" ++ "\n" ++ "Total Amount: $"
          ++ toString (totalOf lines) ++ "\n"
          ++ "\nResult:\n" ++ "REJECTED due to timeout") := by
  rw [initWf_eq]
  dsimp only
  refine ⟨?_, ?_, ?_⟩
  · rw [run_to_deciding]
    simp [statusAt, Store.get_set_self]
  · rw [timeout_run]
    simp [recordResult, Store.get_set_self, Store.set_set_self]
  · rw [timeout_run]
    simp [recordResult, check_invoice_status, Store.get_set_self,
      Store.set_set_self, statusString]

/-- C4: an approval after `a` polls (any point before the deadline) makes the
run complete with the payment results in exactly the input line-item order:
the payment steps are invoked sequentially on the lines in order
(`calls = lines`) and the recorded result joins the per-line confirmations in
that same order. -/
theorem payments_in_input_order (store0 : Store) (invoice_id : String)
    (lines : List InvoiceLine) (a : Nat) (ha : a ≤ 300) :
    Store.get (recordResult (initWf store0 invoice_id lines).1
        (runEvs (initWf store0 invoice_id lines).1
          (initWf store0 invoice_id lines).2
          (List.replicate a Ev.tick
            ++ Ev.approveEv :: List.replicate (lines.length + 3) Ev.tick))).store
        invoice_id
      = some ⟨Status.completed, ⟨invoice_id, lines, totalOf lines⟩,
          some ("COMPLETED\n"
            ++ String.intercalate "\n" (lines.map processPayment))⟩
    ∧ (recordResult (initWf store0 invoice_id lines).1
        (runEvs (initWf store0 invoice_id lines).1
          (initWf store0 invoice_id lines).2
          (List.replicate a Ev.tick
            ++ Ev.approveEv :: List.replicate (lines.length + 3) Ev.tick))).calls
      = lines := by
  rw [initWf_eq]
  dsimp only
  rw [approved_run store0 invoice_id lines a ha]
  constructor
  · simp [recordResult, Store.get_set_self, Store.set_set_self]
  · simp [recordResult, Store.get_set_self]

/-- C4 (witness): the two-line invoice approved immediately completes with
both payments recorded in submission order. -/
theorem payments_in_input_order_witness :
    (0 : Nat) ≤ 300
    ∧ (Store.get (recordResult
          (initWf [] "INV-1" [⟨"consulting", 100, "c"⟩, ⟨"expenses", 50, "e"⟩]).1
          (runEvs
            (initWf [] "INV-1" [⟨"consulting", 100, "c"⟩, ⟨"expenses", 50, "e"⟩]).1
            (initWf [] "INV-1" [⟨"consulting", 100, "c"⟩, ⟨"expenses", 50, "e"⟩]).2
            (List.replicate 0 Ev.tick ++ Ev.approveEv :: List.replicate
              (([⟨"consulting", 100, "c"⟩, ⟨"expenses", 50, "e"⟩] : List InvoiceLine).length + 3)
              Ev.tick))).store "INV-1"
        = some ⟨Status.completed,
            ⟨"INV-1", [⟨"consulting", 100, "c"⟩, ⟨"expenses", 50, "e"⟩],
             totalOf [⟨"consulting", 100, "c"⟩, ⟨"expenses", 50, "e"⟩]⟩,
            some ("COMPLETED\n" ++ String.intercalate "\n"
              ([⟨"consulting", 100, "c"⟩, ⟨"expenses", 50, "e"⟩].map
                processPayment))⟩
      ∧ (recordResult
          (initWf [] "INV-1" [⟨"consulting", 100, "c"⟩, ⟨"expenses", 50, "e"⟩]).1
          (runEvs
            (initWf [] "INV-1" [⟨"consulting", 100, "c"⟩, ⟨"expenses", 50, "e"⟩]).1
            (initWf [] "INV-1" [⟨"consulting", 100, "c"⟩, ⟨"expenses", 50, "e"⟩]).2
            (List.replicate 0 Ev.tick ++ Ev.approveEv :: List.replicate
              (([⟨"consulting", 100, "c"⟩, ⟨"expenses", 50, "e"⟩] : List InvoiceLine).length + 3)
              Ev.tick))).calls
        = [⟨"consulting", 100, "c"⟩, ⟨"expenses", 50, "e"⟩]) :=
  ⟨by norm_num,
   payments_in_input_order [] "INV-1"
     [⟨"consulting", 100, "c"⟩, ⟨"expenses", 50, "e"⟩] 0 (by norm_num)⟩

/-- C10: a timeout rejection and a user rejection observed while polling are
distinguishable through the recorded result string: the workflow returns
`REJECTED due to timeout` resp. `REJECTED by user`, the string is stored in
the entry's result field by the submit handler's callback, and it appears in
the `check_invoice_status` output, while both share the status `rejected`. -/
theorem rejection_reasons_distinguishable (store0 : Store)
    (invoice_id : String) (lines : List InvoiceLine) (a : Nat)
    (ha : a ≤ 299) :
    (∃ st, Store.get (recordResult (initWf store0 invoice_id lines).1
        (runEvs (initWf store0 invoice_id lines).1
          (initWf store0 invoice_id lines).2
          (List.replicate 302 Ev.tick))).store invoice_id = some st
      ∧ st.status = Status.rejected
      ∧ st.result = some "REJECTED due to timeout")
    ∧ (∃ st, Store.get (recordResult (initWf store0 invoice_id lines).1
        (runEvs (initWf store0 invoice_id lines).1
          (initWf store0 invoice_id lines).2
          (List.replicate a Ev.tick ++ [Ev.rejectEv, Ev.tick]))).store
          invoice_id = some st
      ∧ st.status = Status.rejected
      ∧ st.result = some "REJECTED by user")
    ∧ (∃ out, check_invoice_status
        (recordResult (initWf store0 invoice_id lines).1
          (runEvs (initWf store0 invoice_id lines).1
            (initWf store0 invoice_id lines).2
            (List.replicate 302 Ev.tick))).store invoice_id = Except.ok out
      ∧ strOccurs out "REJECTED due to timeout")
    ∧ (∃ out, check_invoice_status
        (recordResult (initWf store0 invoice_id lines).1
          (runEvs (initWf store0 invoice_id lines).1
            (initWf store0 invoice_id lines).2
            (List.replicate a Ev.tick ++ [Ev.rejectEv, Ev.tick]))).store
          invoice_id = Except.ok out
      ∧ strOccurs out "REJECTED by user")
    ∧ "REJECTED due to timeout" ≠ "REJECTED by user" := by
  rw [initWf_eq]
  dsimp only
  rw [timeout_run, reject_run store0 invoice_id lines a ha]
  refine ⟨?_, ?_, ?_, ?_, by decide⟩
  · exact ⟨⟨Status.rejected, ⟨invoice_id, lines, totalOf lines⟩,
        some "REJECTED due to timeout"⟩,
      by simp [recordResult, Store.get_set_self, Store.set_set_self],
      rfl, rfl⟩
  · exact ⟨⟨Status.rejected, ⟨invoice_id, lines, totalOf lines⟩,
        some "REJECTED by user"⟩,
      by simp [recordResult, Store.get_set_self, Store.set_set_self],
      rfl, rfl⟩
  · refine ⟨"Invoice " ++ invoice_id ++ ":\n" ++ "Status: " ++ "rejected"
        ++ "\n" ++ "Total Amount: $" ++ toString (totalOf lines) ++ "\n"
        ++ "\nResult:\n" ++ "REJECTED due to timeout", ?_,
      "Invoice " ++ invoice_id ++ ":\n" ++ "Status: " ++ "rejected"
        ++ "\n" ++ "Total Amount: $" ++ toString (totalOf lines) ++ "\n"
        ++ "\nResult:\n", "", ?_⟩
    · simp [recordResult, check_invoice_status, Store.get_set_self,
        Store.set_set_self, statusString]
    · rw [String.append_empty]
  · refine ⟨"Invoice " ++ invoice_id ++ ":\n" ++ "Status: " ++ "rejected"
        ++ "\n" ++ "Total Amount: $" ++ toString (totalOf lines) ++ "\n"
        ++ "\nResult:\n" ++ "REJECTED by user", ?_,
      "Invoice " ++ invoice_id ++ ":\n" ++ "Status: " ++ "rejected"
        ++ "\n" ++ "Total Amount: $" ++ toString (totalOf lines) ++ "\n"
        ++ "\nResult:\n", "", ?_⟩
    · simp [recordResult, check_invoice_status, Store.get_set_self,
        Store.set_set_self, statusString]
    · rw [String.append_empty]

/-- C10 (witness): the two rejection traces at the concrete two-line invoice,
with the user rejection issued before the first poll. -/
theorem rejection_reasons_distinguishable_witness :
    (0 : Nat) ≤ 299
    ∧ (∃ st, Store.get (recordResult
          (initWf [] "INV-1" [⟨"consulting", 100, "c"⟩]).1
          (runEvs (initWf [] "INV-1" [⟨"consulting", 100, "c"⟩]).1
            (initWf [] "INV-1" [⟨"consulting", 100, "c"⟩]).2
            (List.replicate 302 Ev.tick))).store "INV-1" = some st
        ∧ st.status = Status.rejected
        ∧ st.result = some "REJECTED due to timeout") :=
  ⟨by norm_num,
   (rejection_reasons_distinguishable [] "INV-1" [⟨"consulting", 100, "c"⟩]
     0 (by norm_num)).1⟩

/-- C5: along any interleaving of workflow segments and decision calls, if
the stored status is `rejected` then no payment step was ever invoked, and if
the workflow has returned, its return value is one of the rejection strings. -/
theorem no_payment_when_rejected (store0 : Store) (invoice_id : String)
    (lines : List InvoiceLine) (es : List Ev) :
    ∀ st, Store.get (runEvs (initWf store0 invoice_id lines).1
        (initWf store0 invoice_id lines).2 es).store invoice_id = some st →
      st.status = Status.rejected →
      (runEvs (initWf store0 invoice_id lines).1
        (initWf store0 invoice_id lines).2 es).calls = []
      ∧ ∀ r, (runEvs (initWf store0 invoice_id lines).1
          (initWf store0 invoice_id lines).2 es).phase = Phase.done r →
          r = "REJECTED by user" ∨ r = "REJECTED due to timeout"
            ∨ r = "REJECTED" := by
  intro st hget hrej
  have hInv : Inv (initWf store0 invoice_id lines).1
      (runEvs (initWf store0 invoice_id lines).1
        (initWf store0 invoice_id lines).2 es) :=
    Inv_runEvs _ _ (Inv_init store0 invoice_id lines) es
  obtain ⟨st0, hget0, hrest⟩ := hInv
  have hid : (initWf store0 invoice_id lines).1.id = invoice_id := by
    rw [initWf_eq]
  rw [hid] at hget0
  have hst0 : st0 = st := by rw [hget0] at hget; exact Option.some.inj hget
  subst hst0
  cases hph : (runEvs (initWf store0 invoice_id lines).1
      (initWf store0 invoice_id lines).2 es).phase with
  | polling e0 =>
      rw [hph] at hrest
      exact ⟨hrest.2, by intro r hr; simp at hr⟩
  | deciding =>
      rw [hph] at hrest
      exact ⟨hrest.2, by intro r hr; simp at hr⟩
  | paying rest acc =>
      rw [hph] at hrest
      have hproc := hrest.1
      rw [hrej] at hproc
      simp at hproc
  | done r0 =>
      rw [hph] at hrest
      rcases hrest with ⟨_, hcalls, hstr⟩ | ⟨hcomp, _, _⟩
      · refine ⟨hcalls, ?_⟩
        intro r hr
        injection hr with h0
        subst h0
        exact hstr
      · rw [hrej] at hcomp
        simp at hcomp

/-- C5 (witness): a user rejection before the first poll ends rejected with
an empty payment-call log. -/
theorem no_payment_when_rejected_witness :
    Store.get (runEvs (initWf [] "INV-1" [⟨"consulting", 100, "c"⟩]).1
        (initWf [] "INV-1" [⟨"consulting", 100, "c"⟩]).2
        [Ev.rejectEv, Ev.tick]).store "INV-1"
      = some ⟨Status.rejected, ⟨"INV-1", [⟨"consulting", 100, "c"⟩], 100⟩, none⟩
    ∧ (runEvs (initWf [] "INV-1" [⟨"consulting", 100, "c"⟩]).1
        (initWf [] "INV-1" [⟨"consulting", 100, "c"⟩]).2
        [Ev.rejectEv, Ev.tick]).calls = [] :=
  ⟨by decide,
   (no_payment_when_rejected [] "INV-1" [⟨"consulting", 100, "c"⟩]
     [Ev.rejectEv, Ev.tick]
     ⟨Status.rejected, ⟨"INV-1", [⟨"consulting", 100, "c"⟩], 100⟩, none⟩
     (by decide) rfl).1⟩

/-- C6 (counterexample): the stored status does not only move forward.  After
a completed run of `INV-1`, calling `submit_invoice` again with the same id
moves the stored status from `completed` back to `pending`, which is not an
allowed forward transition. -/
theorem resubmit_moves_status_backward_cx :
    statusAt (runEvs (initWf [] "INV-1" [⟨"consulting", 100, "c"⟩]).1
        (initWf [] "INV-1" [⟨"consulting", 100, "c"⟩]).2
        [Ev.approveEv, Ev.tick, Ev.tick, Ev.tick, Ev.tick]).store "INV-1"
      = some Status.completed
    ∧ statusAt (submit_invoice
        (runEvs (initWf [] "INV-1" [⟨"consulting", 100, "c"⟩]).1
          (initWf [] "INV-1" [⟨"consulting", 100, "c"⟩]).2
          [Ev.approveEv, Ev.tick, Ev.tick, Ev.tick, Ev.tick]).store
        "INV-1" [⟨"consulting", 100, "c"⟩]).store "INV-1"
      = some Status.pending
    ∧ ¬ allowedStep Status.completed Status.pending := by
  decide

/-- C6 (amended): excluding a repeated `submit_invoice`, every serialized
operation — a workflow segment, `approve_invoice`, `reject_invoice` — moves
the stored status only along
`pending → approved → processing → completed` / `pending → rejected` (so
`rejected` and `completed` are terminal for these operations), and the
deferred result write never changes the status. -/
theorem status_monotone_per_event (store0 : Store) (invoice_id : String)
    (lines : List InvoiceLine) (es : List Ev) (e : Ev) :
    (∀ st st', Store.get (runEvs (initWf store0 invoice_id lines).1
          (initWf store0 invoice_id lines).2 es).store invoice_id = some st →
        Store.get (stepEv (initWf store0 invoice_id lines).1
          (runEvs (initWf store0 invoice_id lines).1
            (initWf store0 invoice_id lines).2 es) e).store invoice_id
          = some st' →
        allowedStep st.status st'.status)
    ∧ (∀ st st', Store.get (runEvs (initWf store0 invoice_id lines).1
          (initWf store0 invoice_id lines).2 es).store invoice_id = some st →
        Store.get (recordResult (initWf store0 invoice_id lines).1
          (runEvs (initWf store0 invoice_id lines).1
            (initWf store0 invoice_id lines).2 es)).store invoice_id
          = some st' →
        st'.status = st.status) := by
  have hInv := Inv_runEvs _ _ (Inv_init store0 invoice_id lines) es
  refine ⟨allowed_of_Inv _ _ e hInv, ?_⟩
  intro st st' h1 h2
  exact recordResult_status (initWf store0 invoice_id lines).1
    (runEvs (initWf store0 invoice_id lines).1
      (initWf store0 invoice_id lines).2 es) st st' h1 h2

/-- C6 (witness): from the freshly submitted state, an `approve_invoice`
event takes the stored status along the allowed edge `pending → approved`. -/
theorem status_monotone_per_event_witness :
    Store.get (runEvs (initWf [] "INV-1" [⟨"consulting", 100, "c"⟩]).1
        (initWf [] "INV-1" [⟨"consulting", 100, "c"⟩]).2 []).store "INV-1"
      = some ⟨Status.pending, ⟨"INV-1", [⟨"consulting", 100, "c"⟩], 100⟩, none⟩
    ∧ Store.get (stepEv (initWf [] "INV-1" [⟨"consulting", 100, "c"⟩]).1
        (runEvs (initWf [] "INV-1" [⟨"consulting", 100, "c"⟩]).1
          (initWf [] "INV-1" [⟨"consulting", 100, "c"⟩]).2 [])
        Ev.approveEv).store "INV-1"
      = some ⟨Status.approved, ⟨"INV-1", [⟨"consulting", 100, "c"⟩], 100⟩, none⟩
    ∧ allowedStep Status.pending Status.approved :=
  ⟨by decide, by decide,
   (status_monotone_per_event [] "INV-1" [⟨"consulting", 100, "c"⟩] []
       Ev.approveEv).1
     ⟨Status.pending, ⟨"INV-1", [⟨"consulting", 100, "c"⟩], 100⟩, none⟩
     ⟨Status.approved, ⟨"INV-1", [⟨"consulting", 100, "c"⟩], 100⟩, none⟩
     (by decide) (by decide)⟩

/-- C7: `check_invoice_status` fails with the not-found error on an unknown
id; otherwise it returns output exhibiting the current status, the total
amount, and the recorded result when one is present (and non-empty, matching
the handler's truthiness test). -/
theorem check_status_contract (store : Store) (invoice_id : String) :
    (Store.get store invoice_id = none →
        check_invoice_status store invoice_id
          = Except.error (ToolError.NotFoundError
              ("Invoice " ++ invoice_id ++ " not found")))
    ∧ ∀ st, Store.get store invoice_id = some st →
        ∃ out, check_invoice_status store invoice_id = Except.ok out
          ∧ strOccurs out ("Status: " ++ statusString st.status ++ "\n")
          ∧ strOccurs out
              ("Total Amount: $" ++ toString st.invoice.totalAmount ++ "\n")
          ∧ ∀ r, st.result = some r → r ≠ "" → strOccurs out r := by
  constructor
  · intro h; simp [check_invoice_status, h]
  · intro st hget
    rcases hres : st.result with _ | r
    · refine ⟨"Invoice " ++ invoice_id ++ ":\n" ++ "Status: "
          ++ statusString st.status ++ "\n" ++ "Total Amount: $"
          ++ toString st.invoice.totalAmount ++ "\n",
        by simp [check_invoice_status, hget, hres], ?_, ?_, ?_⟩
      · exact ⟨"Invoice " ++ invoice_id ++ ":\n",
          "Total Amount: $" ++ toString st.invoice.totalAmount ++ "\n",
          by simp only [String.append_assoc]⟩
      · exact ⟨"Invoice " ++ invoice_id ++ ":\n" ++ "Status: "
            ++ statusString st.status ++ "\n", "",
          by simp only [String.append_assoc, String.append_empty]⟩
      · intro r hr; cases hr
    · by_cases hemp : r = ""
      · refine ⟨"Invoice " ++ invoice_id ++ ":\n" ++ "Status: "
            ++ statusString st.status ++ "\n" ++ "Total Amount: $"
            ++ toString st.invoice.totalAmount ++ "\n",
          by simp [check_invoice_status, hget, hres, hemp], ?_, ?_, ?_⟩
        · exact ⟨"Invoice " ++ invoice_id ++ ":\n",
            "Total Amount: $" ++ toString st.invoice.totalAmount ++ "\n",
            by simp only [String.append_assoc]⟩
        · exact ⟨"Invoice " ++ invoice_id ++ ":\n" ++ "Status: "
              ++ statusString st.status ++ "\n", "",
            by simp only [String.append_assoc, String.append_empty]⟩
        · intro r' hr' hne
          have h0 := Option.some.inj hr'
          subst h0
          exact absurd hemp hne
      · refine ⟨"Invoice " ++ invoice_id ++ ":\n" ++ "Status: "
            ++ statusString st.status ++ "\n" ++ "Total Amount: $"
            ++ toString st.invoice.totalAmount ++ "\n" ++ "\nResult:\n" ++ r,
          by simp [check_invoice_status, hget, hres, hemp], ?_, ?_, ?_⟩
        · exact ⟨"Invoice " ++ invoice_id ++ ":\n",
            "Total Amount: $" ++ toString st.invoice.totalAmount ++ "\n"
              ++ "\nResult:\n" ++ r,
            by simp only [String.append_assoc]⟩
        · exact ⟨"Invoice " ++ invoice_id ++ ":\n" ++ "Status: "
              ++ statusString st.status ++ "\n", "\nResult:\n" ++ r,
            by simp only [String.append_assoc]⟩
        · intro r' hr' _
          have h0 := Option.some.inj hr'
          subst h0
          exact ⟨"Invoice " ++ invoice_id ++ ":\n" ++ "Status: "
              ++ statusString st.status ++ "\n" ++ "Total Amount: $"
              ++ toString st.invoice.totalAmount ++ "\n" ++ "\nResult:\n", "",
            by simp only [String.append_assoc, String.append_empty]⟩

/-- C7 (witness): the contract evaluated on a store holding a completed
`INV-1` with a recorded result, and on the unknown id `INV-404`. -/
theorem check_status_contract_witness :
    check_invoice_status
        [("INV-1", ⟨Status.completed, ⟨"INV-1", [], 150⟩, some "DONE"⟩)]
        "INV-404"
      = Except.error (ToolError.NotFoundError "Invoice INV-404 not found")
    ∧ ∃ out, check_invoice_status
        [("INV-1", ⟨Status.completed, ⟨"INV-1", [], 150⟩, some "DONE"⟩)]
        "INV-1" = Except.ok out
      ∧ strOccurs out ("Status: " ++ statusString Status.completed ++ "\n")
      ∧ strOccurs out ("Total Amount: $" ++ toString (150 : Int) ++ "\n")
      ∧ ∀ r, (some "DONE" : Option String) = some r → r ≠ "" →
          strOccurs out r :=
  ⟨(check_status_contract
      [("INV-1", ⟨Status.completed, ⟨"INV-1", [], 150⟩, some "DONE"⟩)]
      "INV-404").1 (by decide),
   (check_status_contract
      [("INV-1", ⟨Status.completed, ⟨"INV-1", [], 150⟩, some "DONE"⟩)]
      "INV-1").2 ⟨Status.completed, ⟨"INV-1", [], 150⟩, some "DONE"⟩
     (by decide)⟩

/-- C9: at the race point — the workflow past its loop, the status still
pending, the timeout transition and an `approve_invoice` call both due —
either serialization makes exactly one of the two win: approve first enters
the payment path (status `processing`, never `rejected`); timeout first
rejects, and the late `approve_invoice` fails with the invalid-state error
and leaves the store unchanged. -/
theorem race_exactly_one_wins (inv : Invoice) (s : WfState) (st : Entry)
    (hget : Store.get s.store inv.id = some st)
    (hst : st.status = Status.pending) (hph : s.phase = Phase.deciding) :
    ((∃ st1, Store.get (stepEv inv (stepEv inv s Ev.approveEv) Ev.tick).store
          inv.id = some st1
        ∧ st1.status = Status.processing ∧ st1.status ≠ Status.rejected)
      ∧ (stepEv inv (stepEv inv s Ev.approveEv) Ev.tick).phase
          = Phase.paying inv.lines [])
    ∧ ((∃ st2, Store.get (stepEv inv s Ev.tick).store inv.id = some st2
        ∧ st2.status = Status.rejected)
      ∧ (stepEv inv s Ev.tick).phase = Phase.done "REJECTED due to timeout"
      ∧ approve_invoice (stepEv inv s Ev.tick).store inv.id
        = ((stepEv inv s Ev.tick).store,
           Except.error (ToolError.InvalidStateError
             ("Invoice " ++ inv.id ++ " is not pending (status: "
               ++ statusString Status.rejected ++ ")")))) := by
  obtain ⟨store, phase, calls⟩ := s
  have hph2 : phase = Phase.deciding := hph
  subst hph2
  have hA1 : stepEv inv ⟨store, Phase.deciding, calls⟩ Ev.approveEv
      = ⟨Store.set store inv.id { st with status := Status.approved },
         Phase.deciding, calls⟩ := by
    simp [stepEv, approve_invoice, hget, hst]
  have hA2 : stepEv inv
      ⟨Store.set store inv.id { st with status := Status.approved },
       Phase.deciding, calls⟩ Ev.tick
      = ⟨Store.set store inv.id { st with status := Status.processing },
         Phase.paying inv.lines [], calls⟩ := by
    simp [stepEv, wfStep, Store.get_set_self, Store.set_set_self]
  have hB1 : stepEv inv ⟨store, Phase.deciding, calls⟩ Ev.tick
      = ⟨Store.set store inv.id { st with status := Status.rejected },
         Phase.done "REJECTED due to timeout", calls⟩ := by
    simp [stepEv, wfStep, hget, hst]
  refine ⟨?_, ?_⟩
  · rw [hA1, hA2]
    exact ⟨⟨{ st with status := Status.processing }, Store.get_set_self ..,
      rfl, by simp⟩, rfl⟩
  · rw [hB1]
    refine ⟨⟨{ st with status := Status.rejected }, Store.get_set_self ..,
      rfl⟩, rfl, ?_⟩
    simp [approve_invoice, Store.get_set_self, statusString]

/-- C9 (witness): the race point for a concrete pending invoice: timeout
first ends in the timeout rejection; approve first enters the payment path. -/
theorem race_exactly_one_wins_witness :
    (stepEv ⟨"INV-1", [], 0⟩
        ⟨[("INV-1", ⟨Status.pending, ⟨"INV-1", [], 0⟩, none⟩)],
         Phase.deciding, []⟩ Ev.tick).phase
      = Phase.done "REJECTED due to timeout"
    ∧ (stepEv ⟨"INV-1", [], 0⟩
        (stepEv ⟨"INV-1", [], 0⟩
          ⟨[("INV-1", ⟨Status.pending, ⟨"INV-1", [], 0⟩, none⟩)],
           Phase.deciding, []⟩ Ev.approveEv) Ev.tick).phase
      = Phase.paying [] [] :=
  ⟨(race_exactly_one_wins ⟨"INV-1", [], 0⟩
      ⟨[("INV-1", ⟨Status.pending, ⟨"INV-1", [], 0⟩, none⟩)],
       Phase.deciding, []⟩
      ⟨Status.pending, ⟨"INV-1", [], 0⟩, none⟩
      (by decide) rfl rfl).2.2.1,
   (race_exactly_one_wins ⟨"INV-1", [], 0⟩
      ⟨[("INV-1", ⟨Status.pending, ⟨"INV-1", [], 0⟩, none⟩)],
       Phase.deciding, []⟩
      ⟨Status.pending, ⟨"INV-1", [], 0⟩, none⟩
      (by decide) rfl rfl).1.2⟩

end InvoiceServer
